import Mathlib

/-!
Verification of the coin-flip options dashboard generator
(src/generate_dashboard.py).

Shallow embedding conventions:

* Prices (floats holding decimal dollar amounts in the script) are `ℚ`.
* The ambient environment of a run is passed in explicitly:
  `today` is the string form of `datetime.date.today()`, `weekday` the
  value of `datetime.date.today().weekday()` (0 = Monday, 5 = Saturday,
  6 = Sunday), the coin flip `side`, the price-oracle result
  `spy_price : Option ℚ` (`none` = `get_spy_price` returned `None` after
  an exception), the contract universe handed back by
  `get_option_contracts`, and the two `get_option_trades` responses.
* A candidate contract is an `Option Contract`: `none` models a contract
  object whose attribute access (`c.strike_price`) raises inside the
  `try`/`except` of the OTM loop; `some c` a well-formed contract.
* A `get_option_trades(...).trades` response is an `Option (List ℚ)`:
  `none` models the request itself raising, `some l` the chronologically
  ordered list of trade prices (the script only reads `trades[-1].price`).
* The ledger CSV is an `Option (List Trade)`: `none` models
  `FileNotFoundError`, `some l` the parsed rows.  Persistence is
  represented by the ledger value `update_trades` returns (the script
  writes exactly that DataFrame back to disk).
-/

namespace CoinFlip

/-- The coin flip result: `random.choice(["call", "put"])`. -/
inductive Side
  | call
  | put
  deriving DecidableEq, Repr

/-- An option contract as consumed by the script (`c.symbol`,
`c.strike_price`, `c.expiration_date`, `c.underlying_symbol`). -/
structure Contract where
  symbol : String
  strike_price : ℚ
  expiration_date : String
  underlying_symbol : String
  deriving DecidableEq, Repr

/-- One ledger row, the dict built in `simulate_trade` and mutated by
`close_trade`.  `exit_price` and `pnl` are `None` until the trade is
closed. -/
structure Trade where
  date : String
  side : Side
  symbol : String
  strike : ℚ
  expiry : String
  entry_price : ℚ
  exit_price : Option ℚ
  pnl : Option ℚ
  deriving DecidableEq, Repr

/-- The OTM condition of the loop in `simulate_trade`:
`(side == "call" and strike > spy_price) or (side == "put" and strike < spy_price)`. -/
def otmOK (side : Side) (strike spy_price : ℚ) : Prop :=
  (side = Side.call ∧ spy_price < strike) ∨ (side = Side.put ∧ strike < spy_price)

instance (side : Side) (strike spy_price : ℚ) :
    Decidable (otmOK side strike spy_price) := by
  unfold otmOK
  exact inferInstance

/-- The `otm_contracts` accumulation loop of `simulate_trade`: each
candidate is appended when its strike satisfies the OTM condition; a
candidate whose attribute access raises (`none`) is skipped by the
`except ... continue`. -/
def otmFilter (side : Side) (spy_price : ℚ) (contracts : List (Option Contract)) :
    List Contract :=
  contracts.filterMap fun c =>
    match c with
    | none => none
    | some c => if otmOK side c.strike_price spy_price then some c else none

/-- The sort key `lambda c: abs(c.strike_price - spy_price)`. -/
def distKey (spy_price : ℚ) (c : Contract) : ℚ :=
  |c.strike_price - spy_price|

/-- Insert `x` into an already `key`-sorted list, in front of the first
element whose key is not smaller.  Used to realise Python's stable
`list.sort(key=...)`: an element inserted from the left stays in front
of later elements with an equal key. -/
def insertByKey {α : Type} (key : α → ℚ) (x : α) : List α → List α
  | [] => [x]
  | y :: ys => if key x ≤ key y then x :: y :: ys else y :: insertByKey key x ys

/-- Stable sort by a rational-valued key; the extensional behaviour of
CPython's `list.sort(key=...)` (Timsort is stable, so any stable sort
computes the same list). -/
def sortByKey {α : Type} (key : α → ℚ) : List α → List α
  | [] => []
  | x :: xs => insertByKey key x (sortByKey key xs)

/-- First element attaining the minimal key, scanning left to right.
Specification device used to characterise `(sortByKey key l).head?`. -/
def argminFirst {α : Type} (key : α → ℚ) : List α → Option α
  | [] => none
  | x :: xs =>
    match argminFirst key xs with
    | none => some x
    | some m => if key x ≤ key m then some x else some m

/-- The Selector step of `simulate_trade` (lines 97-128 of the script):
filter to the OTM subset, return `None` when it is empty, otherwise sort
by distance from the current price and take the first element. -/
def selectOTM (side : Side) (spy_price : ℚ) (contracts : List (Option Contract)) :
    Option Contract :=
  if (otmFilter side spy_price contracts).isEmpty then none
  else (sortByKey (distKey spy_price) (otmFilter side spy_price contracts)).head?

/-- `float(trades[-1].price) if trades else 0`, with the surrounding
`try`/`except` mapping a raising request (`none`) to `0` as well.  The
identical snippet prices both the entry (1-hour window) and the exit
(30-minute window). -/
def lastPriceOr0 (fetch : Option (List ℚ)) : ℚ :=
  match fetch with
  | none => 0
  | some trades =>
    match trades.getLast? with
    | none => 0
    | some p => p

/-- Round-half-even to an integer, the behaviour of Python's `round` on
an exactly representable value. -/
def roundHalfEven (s : ℚ) : ℤ :=
  let f : ℤ := ⌊s⌋
  let r : ℚ := s - f
  if r < 1/2 then f
  else if 1/2 < r then f + 1
  else if f % 2 = 0 then f else f + 1

/-- Python's `round(x, 2)`. -/
def round2 (q : ℚ) : ℚ :=
  (roundHalfEven (q * 100) : ℚ) / 100

/-- `simulate_trade`, with the ambient date, coin flip and the three
provider responses passed explicitly.  Returns `none` exactly when the
script returns `None` (price fetch failed, no contracts returned, or no
OTM contract found); otherwise the open trade dict. -/
def simulate_trade (today : String) (side : Side) (spy_price : Option ℚ)
    (contracts : List (Option Contract)) (entryFetch : Option (List ℚ)) :
    Option Trade :=
  match spy_price with
  | none => none
  | some spy_price =>
    if contracts.isEmpty then none
    else
      match selectOTM side spy_price contracts with
      | none => none
      | some contract =>
        some
          { date := today
            side := side
            symbol := contract.symbol
            strike := contract.strike_price
            expiry := contract.expiration_date
            entry_price := lastPriceOr0 entryFetch
            exit_price := none
            pnl := none }

/-- `close_trade`: fetch the most recent trade price over the trailing
30-minute window (`0` on an empty or failed fetch), record it as
`exit_price` and set `pnl = round(close_price - entry_price, 2)`. -/
def close_trade (exitFetch : Option (List ℚ)) (trade : Trade) : Trade :=
  let close_price := lastPriceOr0 exitFetch
  { trade with
      exit_price := some close_price
      pnl := some (round2 (close_price - trade.entry_price)) }

/-- `update_trades`: load the ledger (missing file gives an empty
DataFrame), return it unchanged on a weekend or when `simulate_trade`
yields no trade, otherwise close the trade and append it. -/
def update_trades (file : Option (List Trade)) (weekday : ℕ) (today : String)
    (side : Side) (spy_price : Option ℚ) (contracts : List (Option Contract))
    (entryFetch exitFetch : Option (List ℚ)) : List Trade :=
  let df := file.getD []
  if weekday ≥ 5 then df
  else
    match simulate_trade today side spy_price contracts entryFetch with
    | none => df
    | some trade => df ++ [close_trade exitFetch trade]

/-- The slice of a pandas DataFrame that `generate_plot` touches: the
column list, the `date` column and the `pnl` column (one entry per
row). -/
structure Frame where
  columns : List String
  dates : List String
  pnls : List ℚ
  deriving DecidableEq, Repr

/-- The rendered figure: the single scatter trace's x and y series. -/
structure Plot where
  x : List String
  y : List ℚ
  deriving DecidableEq, Repr

/-- Running sums with accumulator: `df["pnl"].cumsum()`. -/
def cumsumAux (acc : ℚ) : List ℚ → List ℚ
  | [] => []
  | p :: ps => (acc + p) :: cumsumAux (acc + p) ps

/-- `df["pnl"].cumsum()` starting from 0. -/
def cumsum (pnls : List ℚ) : List ℚ :=
  cumsumAux 0 pnls

/-- `generate_plot`: no-op (`none`) when the DataFrame is empty or has
no `pnl` column; otherwise render cumulative pnl against the date
column. -/
def generate_plot (df : Frame) : Option Plot :=
  if df.dates.isEmpty || !(df.columns.contains "pnl") then none
  else some { x := df.dates, y := cumsum df.pnls }

/-! ### Helper lemmas about the stable sort and the OTM filter -/

/-- The head of an insertion is the smaller of `x` and the old head,
preferring `x` on ties. -/
theorem head_insertByKey {α : Type} (key : α → ℚ) (x : α) (s : List α) :
    (insertByKey key x s).head? =
      some (match s.head? with
            | none => x
            | some y => if key x ≤ key y then x else y) := by
  cases s with
  | nil => rfl
  | cons y ys =>
    by_cases h : key x ≤ key y
    · simp [insertByKey, h]
    · simp [insertByKey, h]

/-- The head of the stable sort is the first element attaining the
minimal key. -/
theorem head_sortByKey {α : Type} (key : α → ℚ) (l : List α) :
    (sortByKey key l).head? = argminFirst key l := by
  induction l with
  | nil => rfl
  | cons x xs ih =>
    rw [sortByKey, head_insertByKey, argminFirst, ← ih]
    cases hs : (sortByKey key xs).head? with
    | none => simp
    | some m => by_cases h : key x ≤ key m <;> simp [h]

theorem argminFirst_eq_none {α : Type} (key : α → ℚ) (l : List α) :
    argminFirst key l = none ↔ l = [] := by
  cases l with
  | nil => simp [argminFirst]
  | cons x xs =>
    simp only [argminFirst]
    cases argminFirst key xs with
    | none => simp
    | some m => by_cases h : key x ≤ key m <;> simp [h]

theorem argminFirst_isSome {α : Type} (key : α → ℚ) (l : List α) (h : l ≠ []) :
    ∃ c, argminFirst key l = some c := by
  cases hm : argminFirst key l with
  | none => exact absurd ((argminFirst_eq_none key l).mp hm) h
  | some c => exact ⟨c, rfl⟩

/-- `argminFirst` returns a member of the list that minimises the key,
and every element strictly before it has a strictly larger key. -/
theorem argminFirst_spec {α : Type} (key : α → ℚ) (l : List α) :
    ∀ c : α, argminFirst key l = some c →
      c ∈ l ∧ (∀ d ∈ l, key c ≤ key d) ∧
      ∃ l₁ l₂, l = l₁ ++ c :: l₂ ∧ ∀ d ∈ l₁, key c < key d := by
  induction l with
  | nil => intro c hc; simp [argminFirst] at hc
  | cons x xs ih =>
    intro c hc
    rw [argminFirst] at hc
    cases hmx : argminFirst key xs with
    | none =>
      rw [hmx] at hc
      injection hc with hc
      subst hc
      have hxs : xs = [] := (argminFirst_eq_none key xs).mp hmx
      subst hxs
      exact ⟨by simp, by simp, [], [], rfl, by simp⟩
    | some m =>
      rw [hmx] at hc
      have hc2 : (if key x ≤ key m then some x else some m) = some c := hc
      obtain ⟨hm_mem, hm_min, l₁, l₂, hsplit, hl₁⟩ := ih m hmx
      by_cases h : key x ≤ key m
      · rw [if_pos h] at hc2
        injection hc2 with hc2
        subst hc2
        refine ⟨List.mem_cons_self _ _, ?_, [], xs, rfl, by simp⟩
        intro d hd
        rcases List.mem_cons.mp hd with rfl | hd
        · exact le_refl _
        · exact le_trans h (hm_min d hd)
      · rw [if_neg h] at hc2
        injection hc2 with hc2
        subst hc2
        push_neg at h
        refine ⟨List.mem_cons_of_mem _ hm_mem, ?_, x :: l₁, l₂, by rw [hsplit]; rfl, ?_⟩
        · intro d hd
          rcases List.mem_cons.mp hd with rfl | hd
          · exact le_of_lt h
          · exact hm_min d hd
        · intro d hd
          rcases List.mem_cons.mp hd with rfl | hd
          · exact h
          · exact hl₁ d hd

/-- Membership in the OTM subset: exactly the well-formed input
candidates satisfying the OTM condition. -/
theorem mem_otmFilter (side : Side) (spy_price : ℚ)
    (contracts : List (Option Contract)) (c : Contract) :
    c ∈ otmFilter side spy_price contracts ↔
      some c ∈ contracts ∧ otmOK side c.strike_price spy_price := by
  simp only [otmFilter, List.mem_filterMap]
  constructor
  · rintro ⟨oc, hoc, hf⟩
    cases oc with
    | none => simp at hf
    | some d =>
      by_cases h : otmOK side d.strike_price spy_price
      · rw [show (match some d with
            | none => (none : Option Contract)
            | some c => if otmOK side c.strike_price spy_price then some c else none)
              = if otmOK side d.strike_price spy_price then some d else none from rfl,
          if_pos h] at hf
        injection hf with hf
        subst hf
        exact ⟨hoc, h⟩
      · rw [show (match some d with
            | none => (none : Option Contract)
            | some c => if otmOK side c.strike_price spy_price then some c else none)
              = if otmOK side d.strike_price spy_price then some d else none from rfl,
          if_neg h] at hf
        simp at hf
  · rintro ⟨hmem, hok⟩
    refine ⟨some c, hmem, ?_⟩
    simp [hok]

/-- When the OTM subset is non-empty, the Selector computes the first
minimiser of the distance key. -/
theorem selectOTM_eq_argminFirst (side : Side) (spy_price : ℚ)
    (contracts : List (Option Contract))
    (h : otmFilter side spy_price contracts ≠ []) :
    selectOTM side spy_price contracts
      = argminFirst (distKey spy_price) (otmFilter side spy_price contracts) := by
  unfold selectOTM
  rw [if_neg (by simpa [List.isEmpty_iff] using h), head_sortByKey]

/-! ### Helper lemmas about cumulative sums and rounding -/

theorem length_cumsumAux (l : List ℚ) : ∀ acc : ℚ, (cumsumAux acc l).length = l.length := by
  induction l with
  | nil => intro acc; rfl
  | cons p ps ih => intro acc; simp [cumsumAux, ih]

theorem get_cumsumAux (l : List ℚ) :
    ∀ (acc : ℚ) (i : ℕ) (h : i < (cumsumAux acc l).length),
      (cumsumAux acc l).get ⟨i, h⟩ = acc + (l.take (i + 1)).sum := by
  induction l with
  | nil => intro acc i h; simp [cumsumAux] at h
  | cons p ps ih =>
    intro acc i h
    cases i with
    | zero => simp [cumsumAux]
    | succ j =>
      have h' : j < (cumsumAux (acc + p) ps).length := by
        have := h
        simp only [cumsumAux, List.length_cons] at this
        omega
      have step : (cumsumAux acc (p :: ps)).get ⟨j + 1, h⟩
          = (cumsumAux (acc + p) ps).get ⟨j, h'⟩ := List.get_cons_succ
      rw [step, ih (acc + p) j h', List.take_succ_cons, List.sum_cons]
      ring

theorem length_cumsum (l : List ℚ) : (cumsum l).length = l.length :=
  length_cumsumAux l 0

theorem get_cumsum (l : List ℚ) (i : ℕ) (h : i < (cumsum l).length) :
    (cumsum l).get ⟨i, h⟩ = (l.take (i + 1)).sum := by
  have step := get_cumsumAux l 0 i h
  rw [zero_add] at step
  exact step

/-- Round-half-even fixes integers. -/
theorem roundHalfEven_intCast (m : ℤ) : roundHalfEven (m : ℚ) = m := by
  unfold roundHalfEven
  simp [Int.floor_intCast]

/-- Rounding an exact multiple of a cent to two decimals is the
identity; in particular the pnl of an unpriced exit is exactly the
negated entry price. -/
theorem round2_neg_cent (n : ℤ) : round2 (0 - (n : ℚ) / 100) = -((n : ℚ) / 100) := by
  have h1 : (0 - (n : ℚ) / 100) * 100 = ((-n : ℤ) : ℚ) := by push_cast; ring
  unfold round2
  rw [h1, roundHalfEven_intCast]
  push_cast
  ring

/-! ### Concrete data for the witnesses -/

/-- Demo put/call contracts around a SPY price of 450, the scenario of
the spec (strikes 448, 452, 460). -/
def c448 : Contract :=
  { symbol := "SPY251010C00448000", strike_price := 448,
    expiration_date := "2025-10-10", underlying_symbol := "SPY" }

def c452 : Contract :=
  { symbol := "SPY251010C00452000", strike_price := 452,
    expiration_date := "2025-10-10", underlying_symbol := "SPY" }

def c460 : Contract :=
  { symbol := "SPY251010C00460000", strike_price := 460,
    expiration_date := "2025-10-10", underlying_symbol := "SPY" }

/-- An open trade as `simulate_trade` would build it for `c452`. -/
def demoOpenTrade : Trade :=
  { date := "2025-10-10", side := Side.call, symbol := "SPY251010C00452000",
    strike := 452, expiry := "2025-10-10", entry_price := 1,
    exit_price := none, pnl := none }

/-- A closed ledger row dated 2025-10-10. -/
def demoClosedTrade : Trade :=
  { date := "2025-10-10", side := Side.call, symbol := "SPY251010C00452000",
    strike := 452, expiry := "2025-10-10", entry_price := 1,
    exit_price := some 2, pnl := some 1 }

/-- A three-row DataFrame with pnl column `[3, -1, 2]`. -/
def demoFrame : Frame :=
  { columns := ["date", "side", "symbol", "strike", "expiry",
                "entry_price", "exit_price", "pnl"],
    dates := ["2025-10-08", "2025-10-09", "2025-10-10"],
    pnls := [3, -1, 2] }

/-! ### The claims -/

/-- C1: For every side (call or put), every reference price, and every
sequence of candidate contracts whose OTM subset is non-empty, the
Selector keeps exactly the candidates whose strike is strictly above
the reference price for calls and strictly below it for puts, and
returns a contract of that subset minimising `|strike − reference|`;
every OTM contract strictly before the returned one in input order has
a strictly larger distance, so ties go to the earliest candidate in the
provider-returned order. -/
theorem C1_selector_nearest_otm (side : Side) (spy_price : ℚ)
    (contracts : List (Option Contract))
    (h : otmFilter side spy_price contracts ≠ []) :
    (∀ c : Contract, c ∈ otmFilter side spy_price contracts ↔
        some c ∈ contracts ∧ otmOK side c.strike_price spy_price) ∧
    (∀ d ∈ otmFilter side spy_price contracts,
        (side = Side.call → spy_price < d.strike_price) ∧
        (side = Side.put → d.strike_price < spy_price)) ∧
    ∃ c l₁ l₂,
      selectOTM side spy_price contracts = some c ∧
      otmFilter side spy_price contracts = l₁ ++ c :: l₂ ∧
      (∀ d ∈ otmFilter side spy_price contracts,
          |c.strike_price - spy_price| ≤ |d.strike_price - spy_price|) ∧
      ∀ d ∈ l₁, |c.strike_price - spy_price| < |d.strike_price - spy_price| := by
  refine ⟨fun c => mem_otmFilter side spy_price contracts c, ?_, ?_⟩
  · intro d hd
    have hok := ((mem_otmFilter side spy_price contracts d).mp hd).2
    unfold otmOK at hok
    constructor
    · rintro rfl
      rcases hok with ⟨_, hlt⟩ | ⟨hput, _⟩
      · exact hlt
      · exact Side.noConfusion hput
    · rintro rfl
      rcases hok with ⟨hcall, _⟩ | ⟨_, hlt⟩
      · exact Side.noConfusion hcall
      · exact hlt
  · obtain ⟨c, hc⟩ := argminFirst_isSome (distKey spy_price) _ h
    obtain ⟨hmem, hmin, l₁, l₂, hsplit, hlt⟩ := argminFirst_spec (distKey spy_price) _ c hc
    refine ⟨c, l₁, l₂, ?_, hsplit, ?_, ?_⟩
    · rw [selectOTM_eq_argminFirst side spy_price contracts h, hc]
    · intro d hd
      exact hmin d hd
    · intro d hd
      exact hlt d hd

/-- Witness for C1 at the spec's scenario: price 450, call side, strikes
448/452/460 — the OTM subset is `[c452, c460]` and the 452 contract is
selected. -/
theorem C1_selector_nearest_otm_witness :
    (∀ c : Contract, c ∈ otmFilter Side.call 450 [some c448, some c452, some c460] ↔
        some c ∈ [some c448, some c452, some c460] ∧ otmOK Side.call c.strike_price 450) ∧
    (∀ d ∈ otmFilter Side.call 450 [some c448, some c452, some c460],
        (Side.call = Side.call → 450 < d.strike_price) ∧
        (Side.call = Side.put → d.strike_price < 450)) ∧
    ∃ c l₁ l₂,
      selectOTM Side.call 450 [some c448, some c452, some c460] = some c ∧
      otmFilter Side.call 450 [some c448, some c452, some c460] = l₁ ++ c :: l₂ ∧
      (∀ d ∈ otmFilter Side.call 450 [some c448, some c452, some c460],
          |c.strike_price - 450| ≤ |d.strike_price - 450|) ∧
      ∀ d ∈ l₁, |c.strike_price - 450| < |d.strike_price - 450| :=
  C1_selector_nearest_otm Side.call 450 [some c448, some c452, some c460]
    (by norm_num +decide [otmFilter, otmOK, List.filterMap, c448, c452, c460])

/-- C3: on a Saturday (`weekday = 5`) or Sunday (`weekday = 6`),
`update_trades` returns the loaded ledger unchanged and appends no
row. -/
theorem C3_weekend_guard (file : Option (List Trade)) (weekday : ℕ) (today : String)
    (side : Side) (spy_price : Option ℚ) (contracts : List (Option Contract))
    (entryFetch exitFetch : Option (List ℚ)) (h : weekday = 5 ∨ weekday = 6) :
    update_trades file weekday today side spy_price contracts entryFetch exitFetch
      = file.getD [] := by
  rcases h with h | h <;> subst h <;> simp [update_trades]

/-- Witness for C3: a Sunday run on a one-row ledger leaves it as is. -/
theorem C3_weekend_guard_witness :
    update_trades (some [demoClosedTrade]) 6 "2025-10-12" Side.call (some 450)
        [some c452] (some [1]) (some [2]) = [demoClosedTrade] :=
  C3_weekend_guard (some [demoClosedTrade]) 6 "2025-10-12" Side.call (some 450)
    [some c452] (some [1]) (some [2]) (Or.inr rfl)

/-- C7: a missing ledger file (`FileNotFoundError`) makes the whole run
behave exactly as a run starting from an empty ledger. -/
theorem C7_missing_file_empty_ledger (weekday : ℕ) (today : String) (side : Side)
    (spy_price : Option ℚ) (contracts : List (Option Contract))
    (entryFetch exitFetch : Option (List ℚ)) :
    update_trades none weekday today side spy_price contracts entryFetch exitFetch
      = update_trades (some []) weekday today side spy_price contracts entryFetch exitFetch :=
  rfl

/-- C9: a candidate whose evaluation raises (modelled `none`) is
skipped: the OTM subset, the Selector's choice and the whole simulated
trade are the same as if the bad candidate were not in the provider's
list at all. -/
theorem C9_bad_candidate_skipped (today : String) (side : Side)
    (pre post : List (Option Contract)) (entryFetch : Option (List ℚ)) :
    (∀ spy_price : ℚ,
      otmFilter side spy_price (pre ++ none :: post)
          = otmFilter side spy_price (pre ++ post) ∧
      selectOTM side spy_price (pre ++ none :: post)
          = selectOTM side spy_price (pre ++ post)) ∧
    ∀ spy_price : Option ℚ,
      simulate_trade today side spy_price (pre ++ none :: post) entryFetch
        = simulate_trade today side spy_price (pre ++ post) entryFetch := by
  have hfil : ∀ p : ℚ, otmFilter side p (pre ++ none :: post)
      = otmFilter side p (pre ++ post) := by
    intro p
    simp [otmFilter, List.filterMap_append, List.filterMap_cons]
  have hsel : ∀ p : ℚ, selectOTM side p (pre ++ none :: post)
      = selectOTM side p (pre ++ post) := by
    intro p
    unfold selectOTM
    rw [hfil p]
  refine ⟨fun p => ⟨hfil p, hsel p⟩, ?_⟩
  intro sp
  cases sp with
  | none => rfl
  | some p =>
    simp only [simulate_trade]
    by_cases hpp : (pre ++ post).isEmpty
    · rw [List.isEmpty_iff, List.append_eq_nil] at hpp
      obtain ⟨hpre, hpost⟩ := hpp
      subst hpre
      subst hpost
      simp [selectOTM, otmFilter, List.filterMap]
    · have hne : ¬((pre ++ none :: post).isEmpty = true) := by
        simp [List.isEmpty_iff]
      rw [if_neg hne, if_neg (by simpa using hpp), hsel p]

/-- C2 fails on the code: `update_trades` never checks whether the
run's date already has a ledger row.  Here the loaded ledger already
holds a trade dated 2025-10-10, the run happens on weekday 0 of
2025-10-10, and a second row with the same date is appended: the
resulting ledger has two rows for that calendar date. -/
theorem C2_double_trade_same_date :
    (update_trades (some [demoClosedTrade]) 0 "2025-10-10" Side.call (some 450)
        [some c448, some c452, some c460] (some [1]) (some [2])).countP
      (fun t => t.date == "2025-10-10") = 2 := by
  norm_num +decide [update_trades, simulate_trade, selectOTM, otmFilter, otmOK,
    c448, c452, c460, sortByKey, insertByKey, distKey, List.filterMap, close_trade,
    lastPriceOr0, demoClosedTrade, round2, roundHalfEven, List.countP, List.countP.go]

/-- C4: an empty Recent-Trades response prices the entry at the 0
sentinel while the trade is still created, closed against the exit
fetch and appended; an empty response at close prices the exit at 0 and
the pnl is still computed, against the sentinel. -/
theorem C4_empty_fetch_sentinel (today : String) (side : Side) (spy_price : ℚ)
    (contracts : List (Option Contract))
    (h : otmFilter side spy_price contracts ≠ []) :
    (∃ t, simulate_trade today side (some spy_price) contracts (some []) = some t ∧
      t.entry_price = 0 ∧
      ∀ (file : Option (List Trade)) (exitFetch : Option (List ℚ)) (weekday : ℕ),
        weekday < 5 →
        update_trades file weekday today side (some spy_price) contracts (some []) exitFetch
          = file.getD [] ++ [close_trade exitFetch t]) ∧
    ∀ t : Trade, (close_trade (some []) t).exit_price = some 0 ∧
      (close_trade (some []) t).pnl = some (round2 (0 - t.entry_price)) := by
  constructor
  · obtain ⟨c, hc0⟩ := argminFirst_isSome (distKey spy_price) _ h
    have hc : selectOTM side spy_price contracts = some c := by
      rw [selectOTM_eq_argminFirst side spy_price contracts h, hc0]
    have hne : ¬(contracts.isEmpty = true) := by
      simp only [List.isEmpty_iff]
      intro hnil
      subst hnil
      exact h rfl
    have hsim : simulate_trade today side (some spy_price) contracts (some [])
        = some { date := today, side := side, symbol := c.symbol,
                 strike := c.strike_price, expiry := c.expiration_date,
                 entry_price := 0, exit_price := none, pnl := none } := by
      simp only [simulate_trade]
      rw [if_neg hne, hc]
      rfl
    refine ⟨_, hsim, rfl, ?_⟩
    intro file exitFetch weekday hwk
    simp only [update_trades]
    rw [if_neg (by omega), hsim]
  · intro t
    exact ⟨rfl, rfl⟩

/-- Witness for C4: call side at price 450 with strikes 448/452/460 and
empty trade-print responses. -/
theorem C4_empty_fetch_sentinel_witness :
    (∃ t, simulate_trade "2025-10-10" Side.call (some 450)
        [some c448, some c452, some c460] (some []) = some t ∧
      t.entry_price = 0 ∧
      ∀ (file : Option (List Trade)) (exitFetch : Option (List ℚ)) (weekday : ℕ),
        weekday < 5 →
        update_trades file weekday "2025-10-10" Side.call (some 450)
            [some c448, some c452, some c460] (some []) exitFetch
          = file.getD [] ++ [close_trade exitFetch t]) ∧
    ∀ t : Trade, (close_trade (some []) t).exit_price = some 0 ∧
      (close_trade (some []) t).pnl = some (round2 (0 - t.entry_price)) :=
  C4_empty_fetch_sentinel "2025-10-10" Side.call 450 [some c448, some c452, some c460]
    (by norm_num +decide [otmFilter, otmOK, List.filterMap, c448, c452, c460])

/-- C5: every trade built by `simulate_trade` has `exit_price = None`
and `pnl = None`, and `close_trade` records some exit price `x` and
sets `pnl = round(x − entry_price, 2)`. -/
theorem C5_pnl_exit_minus_entry (today : String) (side : Side) (spy_price : Option ℚ)
    (contracts : List (Option Contract)) (entryFetch : Option (List ℚ)) (t₀ : Trade)
    (hsim : simulate_trade today side spy_price contracts entryFetch = some t₀)
    (trade : Trade) (exitFetch : Option (List ℚ)) :
    t₀.exit_price = none ∧ t₀.pnl = none ∧
    ∃ x, (close_trade exitFetch trade).exit_price = some x ∧
      (close_trade exitFetch trade).pnl = some (round2 (x - trade.entry_price)) := by
  have hopen : t₀.exit_price = none ∧ t₀.pnl = none := by
    cases spy_price with
    | none => simp [simulate_trade] at hsim
    | some p =>
      simp only [simulate_trade] at hsim
      by_cases hc : contracts.isEmpty
      · rw [if_pos hc] at hsim
        exact Option.noConfusion hsim
      · rw [if_neg hc] at hsim
        cases hsel : selectOTM side p contracts with
        | none =>
          rw [hsel] at hsim
          exact Option.noConfusion hsim
        | some c =>
          rw [hsel] at hsim
          injection hsim with hsim
          subst hsim
          exact ⟨rfl, rfl⟩
  exact ⟨hopen.1, hopen.2, lastPriceOr0 exitFetch, rfl, rfl⟩

/-- Witness for C5: a successful run on the 452 contract produces the
open trade `demoOpenTrade`, then closing at 2 records pnl
`round(2 − 1, 2)`. -/
theorem C5_pnl_exit_minus_entry_witness :
    demoOpenTrade.exit_price = none ∧ demoOpenTrade.pnl = none ∧
    ∃ x, (close_trade (some [2]) demoOpenTrade).exit_price = some x ∧
      (close_trade (some [2]) demoOpenTrade).pnl
        = some (round2 (x - demoOpenTrade.entry_price)) :=
  C5_pnl_exit_minus_entry "2025-10-10" Side.call (some 450) [some c452] (some [1])
    demoOpenTrade
    (by norm_num +decide [simulate_trade, selectOTM, otmFilter, otmOK, List.filterMap,
      sortByKey, insertByKey, distKey, lastPriceOr0, c452, demoOpenTrade])
    demoOpenTrade (some [2])

/-- C6: when the OTM subset is empty — in particular when the contract
universe is empty or every candidate is at- or in-the-money — the
Selector returns `none`, `simulate_trade` returns `none`, and the run
leaves the ledger unchanged. -/
theorem C6_empty_otm_returns_none (today : String) (side : Side) (spy_price : ℚ)
    (contracts : List (Option Contract)) (entryFetch : Option (List ℚ))
    (h : otmFilter side spy_price contracts = []) :
    selectOTM side spy_price contracts = none ∧
    simulate_trade today side (some spy_price) contracts entryFetch = none ∧
    ∀ (file : Option (List Trade)) (weekday : ℕ) (exitFetch : Option (List ℚ)),
      update_trades file weekday today side (some spy_price) contracts entryFetch exitFetch
        = file.getD [] := by
  have hsel : selectOTM side spy_price contracts = none := by
    unfold selectOTM
    rw [if_pos (by simp [List.isEmpty_iff, h])]
  have hsim : simulate_trade today side (some spy_price) contracts entryFetch = none := by
    simp only [simulate_trade]
    by_cases hc : contracts.isEmpty
    · rw [if_pos hc]
    · rw [if_neg hc, hsel]
  refine ⟨hsel, hsim, ?_⟩
  intro file weekday exitFetch
  simp only [update_trades]
  by_cases hw : weekday ≥ 5
  · rw [if_pos hw]
  · rw [if_neg hw, hsim]

/-- Witness for C6: at price 450 on the call side, a universe holding
only the 448 strike is ITM-only, so no trade happens and the ledger is
kept. -/
theorem C6_empty_otm_returns_none_witness :
    selectOTM Side.call 450 [some c448] = none ∧
    simulate_trade "2025-10-10" Side.call (some 450) [some c448] (some [1]) = none ∧
    ∀ (file : Option (List Trade)) (weekday : ℕ) (exitFetch : Option (List ℚ)),
      update_trades file weekday "2025-10-10" Side.call (some 450) [some c448]
          (some [1]) exitFetch
        = file.getD [] :=
  C6_empty_otm_returns_none "2025-10-10" Side.call 450 [some c448] (some [1])
    (by norm_num +decide [otmFilter, otmOK, List.filterMap, c448])

/-- C8: the rendered cumulative-pnl series is the prefix sum of the pnl
column in ledger order, and the Renderer no-ops on an empty DataFrame
or one without a pnl column. -/
theorem C8_cumulative_pnl_prefix_sum (df : Frame) :
    (df.dates.isEmpty = true ∨ "pnl" ∉ df.columns → generate_plot df = none) ∧
    (df.dates.isEmpty = false → "pnl" ∈ df.columns →
      ∃ p, generate_plot df = some p ∧ p.x = df.dates ∧ p.y = cumsum df.pnls ∧
        p.y.length = df.pnls.length ∧
        ∀ (i : ℕ) (hi : i < p.y.length),
          p.y.get ⟨i, hi⟩ = (df.pnls.take (i + 1)).sum) := by
  constructor
  · intro h
    unfold generate_plot
    rcases h with h | h
    · rw [if_pos (by simp [h])]
    · rw [if_pos (by simp [h])]
  · intro h1 h2
    unfold generate_plot
    rw [if_neg (by simp [h1, h2])]
    exact ⟨_, rfl, rfl, rfl, length_cumsum _, fun i hi => get_cumsum _ i hi⟩

/-- Witness for C8: pnl values `[3, -1, 2]` render as cumulative values
`[3, 2, 4]`. -/
theorem C8_cumulative_pnl_prefix_sum_witness :
    cumsum [3, -1, 2] = [3, 2, 4] ∧
    ∃ p, generate_plot demoFrame = some p ∧ p.x = demoFrame.dates ∧
      p.y = cumsum demoFrame.pnls ∧ p.y.length = demoFrame.pnls.length ∧
      ∀ (i : ℕ) (hi : i < p.y.length),
        p.y.get ⟨i, hi⟩ = (demoFrame.pnls.take (i + 1)).sum :=
  ⟨by norm_num [cumsum, cumsumAux],
   (C8_cumulative_pnl_prefix_sum demoFrame).2 rfl (by simp [demoFrame])⟩

/-- C10: when the exit-price lookup returns an empty sequence or fails,
`close_trade` records `pnl = round(0 − entry_price, 2)`; for an entry
price that is an exact multiple of a cent (every real trade print),
that is exactly the negated entry price. -/
theorem C10_unpriced_exit_negates_entry (trade : Trade) (exitFetch : Option (List ℚ))
    (h : exitFetch = none ∨ exitFetch = some []) :
    (close_trade exitFetch trade).pnl = some (round2 (0 - trade.entry_price)) ∧
    ((∃ n : ℤ, trade.entry_price = (n : ℚ) / 100) →
      (close_trade exitFetch trade).pnl = some (-trade.entry_price)) := by
  constructor
  · rcases h with h | h <;> subst h <;> rfl
  · rintro ⟨n, hn⟩
    rcases h with h | h <;> subst h <;>
      · show some (round2 (0 - trade.entry_price)) = some (-trade.entry_price)
        rw [hn, round2_neg_cent]

/-- Witness for C10: the open trade entered at 1.00 closed against an
empty exit fetch books a pnl of exactly −1.00. -/
theorem C10_unpriced_exit_negates_entry_witness :
    (close_trade (some []) demoOpenTrade).pnl
      = some (round2 (0 - demoOpenTrade.entry_price)) ∧
    (close_trade (some []) demoOpenTrade).pnl = some (-demoOpenTrade.entry_price) :=
  ⟨(C10_unpriced_exit_negates_entry demoOpenTrade (some []) (Or.inr rfl)).1,
   (C10_unpriced_exit_negates_entry demoOpenTrade (some []) (Or.inr rfl)).2
     ⟨100, by norm_num [demoOpenTrade]⟩⟩

end CoinFlip
